import Mathlib

/-!
# AutoSQL — verification of the NL-to-SQL core (`src/main.py`)

Shallow embedding of the two core functions of the repository:

* `extract_sql_only` (src/main.py, lines 134–145): line-oriented extraction of
  the first SQL statement from a free-form LLM response;
* `generate_sql_query` (src/main.py, lines 87–132): prompt construction from a
  column list and a question, plus the fail-soft completion request.

Python strings are embedded as `List Char` (Lean 4 `String` is a structure
holding exactly a `List Char`, so the two views convert by `String.data` /
`String.mk`).  Python's `str.strip`, `str.upper`, `str.rstrip(";")`,
`str.splitlines`, `str.startswith`, `str.endswith` and `", ".join` are each
embedded below next to the function that uses them.
-/

namespace AutoSQL

/-- Python whitespace predicate used by `str.strip()`: space, tab, newline,
carriage return, vertical tab, form feed (the ASCII whitespace characters;
exotic Unicode space code points are not exercised by this program). -/
def pyIsSpace (c : Char) : Bool :=
  c == ' ' || c == '\t' || c == '\n' || c == '\r' || c == '\x0b' || c == '\x0c'

/-- Python `str.strip()`: drop leading and trailing whitespace. -/
def pyStrip (l : List Char) : List Char :=
  ((l.dropWhile pyIsSpace).reverse.dropWhile pyIsSpace).reverse

/-- Python `str.upper()` on the ASCII range (the program only ever compares
against the ASCII keywords `SELECT` and `WITH`). -/
def pyUpper (l : List Char) : List Char :=
  l.map Char.toUpper

/-- Python `line.strip().endswith(";")`: the last character is a semicolon. -/
def endsWithSemi (l : List Char) : Bool :=
  l.reverse.head? == some ';'

/-- Python `str.rstrip(";")`: remove every trailing semicolon. -/
def rstripSemi (l : List Char) : List Char :=
  (l.reverse.dropWhile (fun c => c == ';')).reverse

/-- Worker for `str.splitlines()`: `acc` holds the characters of the current
line in reverse.  A line ends at `\r\n`, `\r` or `\n`; a final line with no
terminator is emitted only if non-empty (so `"a\n".splitlines() = ["a"]`
while `"\n".splitlines() = [""]`, exactly as in Python). -/
def splitlinesGo : List Char → List Char → List (List Char)
  | [], acc => if acc.isEmpty then [] else [acc.reverse]
  | '\r' :: '\n' :: rest, acc => acc.reverse :: splitlinesGo rest []
  | '\r' :: rest, acc => acc.reverse :: splitlinesGo rest []
  | '\n' :: rest, acc => acc.reverse :: splitlinesGo rest []
  | c :: rest, acc => splitlinesGo rest (c :: acc)

/-- Python `text.splitlines()`. -/
def pySplitlines (l : List Char) : List (List Char) :=
  splitlinesGo l []

/-- The trigger test of `extract_sql_only` (src/main.py line 138):
`line.strip().upper().startswith("SELECT") or
 line.strip().upper().startswith("WITH")`. -/
def isTriggerLine (line : List Char) : Bool :=
  "SELECT".data.isPrefixOf (pyUpper (pyStrip line))
    || "WITH".data.isPrefixOf (pyUpper (pyStrip line))

/-- The `for line in text.splitlines()` loop of `extract_sql_only`
(src/main.py lines 137–144).  `capture` is the loop-carried flag; the
returned list is `sql_lines`.  The `break` after a semicolon-terminated line
is embedded by returning the singleton without recursing. -/
def extractLoop : List (List Char) → Bool → List (List Char)
  | [], _ => []
  | line :: rest, capture =>
    let capture' := capture || isTriggerLine line
    if capture' then
      if endsWithSemi (pyStrip line) then
        [rstripSemi (pyStrip line)]
      else
        pyStrip line :: extractLoop rest capture'
    else
      extractLoop rest capture'

/-- Python `" ".join` / `", ".join`: `sep`-interleaved concatenation. -/
def joinC (sep : List Char) : List (List Char) → List Char
  | [] => []
  | [x] => x
  | x :: y :: ys => x ++ sep ++ joinC sep (y :: ys)

/-- `extract_sql_only` (src/main.py lines 134–145): scan the response line by
line, start capturing at the first line whose stripped upper-cased form starts
with `SELECT` or `WITH`, stop after a line whose stripped form ends with `;`
(appending it with all trailing semicolons removed), and join the captured
stripped lines with single spaces. -/
def extract_sql_only (text : String) : String :=
  ⟨joinC [' '] (extractLoop (pySplitlines text.data) false)⟩

example : extract_sql_only "Sure!\nSELECT * FROM user_data WHERE age > 30;\nHope that helps."
    = "SELECT * FROM user_data WHERE age > 30" := by decide

example : extract_sql_only "SELECT name\nFROM user_data" = "SELECT name FROM user_data" := by
  decide

example : extract_sql_only "I cannot help with that." = "" := by decide

example : extract_sql_only "SELECT a;;" = "SELECT a" := by decide

example : extract_sql_only "x\r\nselect 1;" = "select 1" := by decide

/-!
## Prompt builder and completion client (`generate_sql_query`, src/main.py 87–132)

The Python function builds one f-string (lines 88–121) and then calls
`.strip()` on it; since the template's first and last non-whitespace
characters are fixed literals, the strip removes exactly the leading and
trailing newline of the template.  The stripped template is the literal
segments below with the two interpolations `{columns}` and `{question}`
between them.
-/

/-- Literal segment of the prompt f-string before the `{columns}`
interpolation (after the leading newline removed by `.strip()`). -/
def promptPart1 : String :=
  "You are an expert SQL assistant. Convert user questions into accurate, executable SQL queries using the given table schema.\n\n### Table schema:\nTable: user_data\nColumns:\n"

/-- Literal segment of the prompt f-string between the `{columns}` and
`{question}` interpolations (the five few-shot examples). -/
def promptPart2 : String :=
  "\n\n### Examples:\n-- Example 1:\nQuestion: What is the average salary of employees older than 30?\nSQL: SELECT AVG(salary) FROM user_data WHERE age > 30;\n\n-- Example 2:\nQuestion: List all distinct departments sorted by name.\nSQL: SELECT DISTINCT department FROM user_data ORDER BY department;\n\n-- Example 3:\nQuestion: How many employees are in the IT department and earn more than 70000?\nSQL: SELECT COUNT(*) FROM user_data WHERE department = 'IT' AND salary > 70000;\n\n-- Example 4:\nQuestion: Which employees joined in the last 2 years?\nSQL: SELECT * FROM user_data WHERE join_date >= DATE('now', '-2 years');\n\n-- Example 5:\nQuestion: Show the top 5 highest paid employees.\nSQL: SELECT * FROM user_data ORDER BY salary DESC LIMIT 5;\n\n-- Now your turn:\n\nQuestion: "

/-- The cue ending the prompt: a newline and `SQL:` (the trailing newline of
the template is removed by `.strip()`). -/
def cueSuffix : String := "\nSQL:"

/-- The prompt string built by `generate_sql_query` (src/main.py 88–121):
the f-string with `{columns}` and `{question}` substituted, after
`.strip()`. -/
def generate_sql_prompt (columns question : String) : String :=
  promptPart1 ++ columns ++ promptPart2 ++ question ++ cueSuffix

/-- The caller's rendering of the uploaded table's schema
(src/main.py line 210): `columns = ", ".join(df.columns)`. -/
def renderColumns (cols : List String) : String :=
  String.intercalate ", " cols

/-- Model of the HTTP response object of `requests.post`: the status code and
the outcome of `response.json()["response"]` — `none` when the body is not
valid JSON (`response.json()` raises), `some none` when the JSON object has
no `"response"` field (`KeyError`), `some (some t)` when the field holds the
completion text `t`. -/
structure HttpResponse where
  status : Nat
  jsonBody : Option (Option String)

/-- Description of the `requests.HTTPError` raised by
`response.raise_for_status()` for a status in 4xx (client error) or 5xx
(server error); `requests` formats the message from the status code and
reason, modelled abstractly from the status. -/
def httpErrorText (status : Nat) : String :=
  toString status ++ " Error"

/-- Description of the `ValueError` raised by `response.json()` on a body
that is not valid JSON. -/
def jsonDecodeErrorText : String := "Expecting value"

/-- `str(KeyError("response"))`: raised when the decoded JSON object lacks
the `"response"` field. -/
def keyErrorText : String := "'response'"

/-- The `try`-block of `generate_sql_query` (src/main.py 123–130): the POST
request (which may raise a network error, modelled as `.error`), then
`raise_for_status()` — which raises exactly for `400 <= status_code < 600`,
the 4xx "Client Error" and 5xx "Server Error" branches of `requests`; any
other status passes through — then `json()["response"]`.  The result is the
completion text or the description of the first exception raised. -/
def completionOutcome (net : Except String HttpResponse) : Except String String :=
  match net with
  | .error e => .error e
  | .ok r =>
    if 400 ≤ r.status ∧ r.status < 600 then .error (httpErrorText r.status)
    else
      match r.jsonBody with
      | none => .error jsonDecodeErrorText
      | some none => .error keyErrorText
      | some (some t) => .ok t

/-- The error marker of the `except`-branch (src/main.py line 132). -/
def errorMarker : String := "❌ Error: "

/-- `generate_sql_query` (src/main.py 87–132): build the prompt, attempt the
completion request (the network is passed as an oracle from prompt to
outcome), return `result.strip()` on success and the marker-prefixed
exception description on any failure.  The function is total: no exception
escapes. -/
def generate_sql_query (columns question : String)
    (net : String → Except String HttpResponse) : String :=
  match completionOutcome (net (generate_sql_prompt columns question)) with
  | .ok result => ⟨pyStrip result.data⟩
  | .error e => errorMarker ++ e

/-!
## Field splitting for the rendered column list

To state "the rendered comma-joined column list contains every column name
exactly once" we read the rendered string back as its list of `", "`
separated fields.
-/

/-- Prepend a character to the first field of a field list. -/
def consHead (c : Char) : List (List Char) → List (List Char)
  | [] => [[c]]
  | f :: fs => (c :: f) :: fs

/-- Split a character list on every occurrence of the separator `", "`. -/
def splitCommaSpace : List Char → List (List Char)
  | [] => [[]]
  | ',' :: ' ' :: rest => [] :: splitCommaSpace rest
  | c :: rest => consHead c (splitCommaSpace rest)

/-- Whether the two-character separator `", "` occurs anywhere in the list. -/
def containsCommaSpace : List Char → Bool
  | [] => false
  | c :: rest => (c == ',' && rest.head? == some ' ') || containsCommaSpace rest

example : splitCommaSpace "name, age, salary".data
    = ["name".data, "age".data, "salary".data] := by decide

example : (renderColumns ["name", "age"]).data = "name, age".data := by decide

example : containsCommaSpace "a, b".data = true := by decide

example : generate_sql_query "c" "q" (fun _ => Except.error "boom")
    = "❌ Error: boom" := by decide

example : generate_sql_query "c" "q"
      (fun _ => Except.ok ⟨200, some (some "  SELECT 1;  ")⟩)
    = "SELECT 1;" := by decide

/-! ## Helper lemmas -/

theorem head?_append_left {α : Type} (x y : List α) (hx : x ≠ []) :
    (x ++ y).head? = x.head? := by
  cases x with
  | nil => exact absurd rfl hx
  | cons a t => rfl

theorem head?_dropWhile_false (p : Char → Bool) :
    ∀ (l : List Char) (c : Char), (l.dropWhile p).head? = some c → p c = false := by
  intro l
  induction l with
  | nil => intro c h; simp [List.dropWhile] at h
  | cons a t ih =>
    intro c h
    rw [List.dropWhile_cons] at h
    by_cases hp : p a = true
    · rw [if_pos hp] at h
      exact ih c h
    · rw [if_neg hp] at h
      have : a = c := by simpa using h
      subst this
      simpa using hp

theorem endsWithSemi_rstripSemi (l : List Char) :
    endsWithSemi (rstripSemi l) = false := by
  unfold endsWithSemi rstripSemi
  rw [List.reverse_reverse]
  cases h : (l.reverse.dropWhile (fun c => c == ';')).head? with
  | none => simp [h]
  | some c =>
    have hc := head?_dropWhile_false _ _ _ h
    simp [h, hc]

theorem endsWithSemi_append_cons (x : List Char) (c : Char) (j : List Char) :
    endsWithSemi (x ++ c :: j) = endsWithSemi (c :: j) := by
  unfold endsWithSemi
  rw [List.reverse_append, head?_append_left _ _ (by simp)]

theorem extractLoop_mem_noSemi :
    ∀ (lines : List (List Char)) (capture : Bool) (p : List Char),
      p ∈ extractLoop lines capture → endsWithSemi p = false := by
  intro lines
  induction lines with
  | nil => intro capture p h; simp [extractLoop] at h
  | cons line rest ih =>
    intro capture p h
    simp only [extractLoop] at h
    by_cases hcap : (capture || isTriggerLine line) = true
    · rw [if_pos hcap] at h
      by_cases hsemi : endsWithSemi (pyStrip line) = true
      · rw [if_pos hsemi] at h
        have : p = rstripSemi (pyStrip line) := by simpa using h
        subst this
        exact endsWithSemi_rstripSemi _
      · rw [if_neg hsemi] at h
        rcases List.mem_cons.mp h with h1 | h2
        · subst h1; simpa using hsemi
        · exact ih _ _ h2
    · rw [if_neg hcap] at h
      exact ih _ _ h

theorem endsWithSemi_joinC :
    ∀ (parts : List (List Char)), (∀ p ∈ parts, endsWithSemi p = false) →
      endsWithSemi (joinC [' '] parts) = false := by
  intro parts
  induction parts with
  | nil => intro _; rfl
  | cons x xs ih =>
    intro hall
    cases xs with
    | nil =>
      exact hall x (by simp)
    | cons y ys =>
      have hj : endsWithSemi (joinC [' '] (y :: ys)) = false :=
        ih (fun p hp => hall p (by simp [hp]))
      show endsWithSemi (x ++ [' '] ++ joinC [' '] (y :: ys)) = false
      cases hc : joinC [' '] (y :: ys) with
      | nil =>
        rw [List.append_nil]
        rw [show x ++ [' '] = x ++ ' ' :: ([] : List Char) from rfl]
        rw [endsWithSemi_append_cons]
        decide
      | cons c j =>
        rw [List.append_assoc]
        rw [show [' '] ++ c :: j = ' ' :: c :: j from rfl]
        rw [endsWithSemi_append_cons]
        rw [show (' ' :: c :: j) = [' '] ++ c :: j from rfl]
        rw [endsWithSemi_append_cons]
        rw [← hc]
        exact hj

theorem splitlinesGo_break (b : List Char) :
    ∀ (a acc : List Char), (∀ c ∈ a, c ≠ '\n' ∧ c ≠ '\r') →
      splitlinesGo (a ++ '\n' :: b) acc = (acc.reverse ++ a) :: splitlinesGo b [] := by
  intro a
  induction a with
  | nil => intro acc _; simp [splitlinesGo]
  | cons d a' ih =>
    intro acc h
    have hd := h d (by simp)
    have hrest : ∀ c ∈ a', c ≠ '\n' ∧ c ≠ '\r' := fun c hc => h c (by simp [hc])
    rw [List.cons_append, splitlinesGo.eq_def]
    split
    · rename_i heq
      exact absurd heq (by simp)
    · rename_i heq
      exact absurd (List.cons.inj heq).1 hd.2
    · rename_i heq
      exact absurd (List.cons.inj heq).1 hd.2
    · rename_i heq
      exact absurd (List.cons.inj heq).1 hd.1
    · rename_i heq
      obtain ⟨hdc, htr⟩ := List.cons.inj heq
      subst hdc
      subst htr
      rw [ih _ hrest]
      simp

theorem pySplitlines_break (a b : List Char) (h : ∀ c ∈ a, c ≠ '\n' ∧ c ≠ '\r') :
    pySplitlines (a ++ '\n' :: b) = a :: pySplitlines b := by
  unfold pySplitlines
  rw [splitlinesGo_break b a [] h]
  simp

theorem extractLoop_skip :
    ∀ (pre rest : List (List Char)), (∀ l ∈ pre, isTriggerLine l = false) →
      extractLoop (pre ++ rest) false = extractLoop rest false := by
  intro pre
  induction pre with
  | nil => intro rest _; rfl
  | cons p pre' ih =>
    intro rest h
    have hp := h p (by simp)
    have hrest : ∀ l ∈ pre', isTriggerLine l = false := fun l hl => h l (by simp [hl])
    rw [List.cons_append]
    simp only [extractLoop, hp, Bool.or_false]
    rw [if_neg (by simp)]
    exact ih rest hrest

theorem isPrefixOf_append_self {α : Type} [BEq α] [LawfulBEq α] :
    ∀ (l z : List α), l.isPrefixOf (l ++ z) = true := by
  intro l z
  induction l with
  | nil => cases z <;> rfl
  | cons a t ih => simp [List.isPrefixOf, ih]

theorem extractLoop_capture_noSemi :
    ∀ (lines : List (List Char)), (∀ l ∈ lines, endsWithSemi (pyStrip l) = false) →
      extractLoop lines true = lines.map pyStrip := by
  intro lines
  induction lines with
  | nil => intro _; rfl
  | cons line rest ih =>
    intro h
    have hl := h line (by simp)
    have hrest : ∀ l ∈ rest, endsWithSemi (pyStrip l) = false := fun l hm => h l (by simp [hm])
    simp only [extractLoop, Bool.true_or, if_pos, hl]
    rw [if_neg (by simp [hl]), ih hrest]
    rfl

theorem count_one_of_nodup {α : Type} [BEq α] [LawfulBEq α] :
    ∀ (l : List α), l.Nodup → ∀ a, a ∈ l → l.count a = 1 := by
  intro l
  induction l with
  | nil => intro _ a ha; simp at ha
  | cons b t ih =>
    intro hnd a ha
    rw [List.count_cons]
    rcases List.mem_cons.mp ha with h | h
    · subst h
      rw [List.count_eq_zero.mpr (List.nodup_cons.mp hnd).1]
      simp
    · rw [ih (List.nodup_cons.mp hnd).2 a h]
      have hba : ¬b = a := by
        intro hba
        subst hba
        exact (List.nodup_cons.mp hnd).1 h
      simp [hba]

theorem splitCommaSpace_no_sep :
    ∀ (l : List Char), containsCommaSpace l = false → splitCommaSpace l = [l] := by
  intro l
  induction l with
  | nil => intro _; rfl
  | cons c rest ih =>
    intro h
    simp only [containsCommaSpace, Bool.or_eq_false_iff, Bool.and_eq_false_iff] at h
    rw [splitCommaSpace.eq_def]
    split
    · rename_i heq
      exact absurd heq (by simp)
    · rename_i heq
      obtain ⟨hc, hr⟩ := List.cons.inj heq
      exfalso
      rcases h.1 with h1 | h1
      · rw [hc] at h1; simp at h1
      · rw [hr] at h1; simp at h1
    · rename_i heq
      obtain ⟨hc, hr⟩ := List.cons.inj heq
      subst hc
      subst hr
      rw [ih h.2]
      rfl

theorem splitCommaSpace_sep_append :
    ∀ (x t : List Char), containsCommaSpace x = false →
      splitCommaSpace (x ++ ',' :: ' ' :: t) = x :: splitCommaSpace t := by
  intro x
  induction x with
  | nil => intro t _; rfl
  | cons c x' ih =>
    intro t h
    simp only [containsCommaSpace, Bool.or_eq_false_iff, Bool.and_eq_false_iff] at h
    rw [List.cons_append, splitCommaSpace.eq_def]
    split
    · rename_i heq
      exact absurd heq (by simp)
    · rename_i heq
      obtain ⟨hc, hr⟩ := List.cons.inj heq
      exfalso
      cases hx : x' with
      | nil =>
        rw [hx] at hr
        exact absurd (List.cons.inj hr).1 (by decide)
      | cons d x'' =>
        rw [hx] at hr
        have hd : d = ' ' := (List.cons.inj hr).1
        rcases h.1 with h1 | h1
        · rw [hc] at h1; simp at h1
        · rw [hx, hd] at h1; simp at h1
    · rename_i heq
      obtain ⟨hc, hr⟩ := List.cons.inj heq
      subst hc
      subst hr
      rw [ih t h.2]
      rfl

theorem splitCommaSpace_joinC :
    ∀ (fields : List (List Char)), fields ≠ [] →
      (∀ f ∈ fields, containsCommaSpace f = false) →
      splitCommaSpace (joinC [',', ' '] fields) = fields := by
  intro fields
  induction fields with
  | nil => intro h _; exact absurd rfl h
  | cons x xs ih =>
    intro _ hall
    cases xs with
    | nil =>
      exact splitCommaSpace_no_sep x (hall x (by simp))
    | cons y ys =>
      have hj : joinC [',', ' '] (x :: y :: ys)
          = x ++ ',' :: ' ' :: joinC [',', ' '] (y :: ys) := by
        show x ++ [',', ' '] ++ joinC [',', ' '] (y :: ys) = _
        rw [List.append_assoc]
        rfl
      rw [hj, splitCommaSpace_sep_append x _ (hall x (by simp))]
      rw [ih (by simp) (fun f hf => hall f (by simp [hf]))]

theorem joinC_merge (sep x y : List Char) :
    ∀ (rest : List (List Char)),
      joinC sep ((x ++ sep ++ y) :: rest) = x ++ sep ++ joinC sep (y :: rest) := by
  intro rest
  cases rest with
  | nil => rfl
  | cons r rs =>
    show (x ++ sep ++ y) ++ sep ++ joinC sep (r :: rs)
        = x ++ sep ++ (y ++ sep ++ joinC sep (r :: rs))
    simp [List.append_assoc]

theorem intercalate_go_data :
    ∀ (as : List String) (acc : String),
      (String.intercalate.go acc ", " as).data
        = joinC [',', ' '] (acc.data :: as.map String.data) := by
  intro as
  induction as with
  | nil => intro acc; rfl
  | cons a as ih =>
    intro acc
    show (String.intercalate.go (acc ++ ", " ++ a) ", " as).data = _
    rw [ih (acc ++ ", " ++ a)]
    have hd : (acc ++ ", " ++ a).data = acc.data ++ [',', ' '] ++ a.data := by
      simp [String.data_append]
    rw [hd, joinC_merge]
    rfl

theorem renderColumns_data (cols : List String) :
    (renderColumns cols).data = joinC [',', ' '] (cols.map String.data) := by
  cases cols with
  | nil => rfl
  | cons a as =>
    show (String.intercalate.go a ", " as).data = _
    rw [intercalate_go_data]
    rfl

/-! ## Claim theorems: the SQL extractor -/

/-- C1: once extraction has started, a trimmed line that ends with a
semicolon is appended with its trailing semicolons stripped and scanning
stops immediately, independently of everything after the newline — in
particular, of a second semicolon-terminated `SELECT` statement in `l2`. -/
theorem extract_stops_at_first_semicolon (l1 l2 : String)
    (hnb : ∀ c ∈ l1.data, c ≠ '\n' ∧ c ≠ '\r')
    (htrig : isTriggerLine l1.data = true)
    (hsemi : endsWithSemi (pyStrip l1.data) = true) :
    extract_sql_only (l1 ++ "\n" ++ l2) = ⟨rstripSemi (pyStrip l1.data)⟩ := by
  unfold extract_sql_only
  have hdata : (l1 ++ "\n" ++ l2).data = l1.data ++ '\n' :: l2.data := by
    simp [String.data_append]
  rw [hdata, pySplitlines_break _ _ hnb]
  simp [extractLoop, htrig, hsemi, joinC]

/-- Witness for C1: of two semicolon-terminated `SELECT` statements in
sequence, only the first is returned, with its semicolon stripped. -/
theorem extract_stops_at_first_semicolon_witness :
    extract_sql_only "SELECT 1 FROM user_data;\nSELECT 2 FROM user_data;"
      = "SELECT 1 FROM user_data" :=
  (extract_stops_at_first_semicolon "SELECT 1 FROM user_data;" "SELECT 2 FROM user_data;"
    (by decide) (by decide) (by decide)).trans (by decide)

/-- C2: when no line from the trigger line onward ends with a semicolon,
every trimmed line from the trigger to the end of the text is accumulated
and the result is those lines joined with single spaces. -/
theorem extract_no_terminator (text : String)
    (pre : List (List Char)) (trig : List Char) (rest : List (List Char))
    (hsplit : pySplitlines text.data = pre ++ trig :: rest)
    (hpre : ∀ l ∈ pre, isTriggerLine l = false)
    (htrig : isTriggerLine trig = true)
    (hnosemi : ∀ l ∈ trig :: rest, endsWithSemi (pyStrip l) = false) :
    extract_sql_only text = ⟨joinC [' '] ((trig :: rest).map pyStrip)⟩ := by
  unfold extract_sql_only
  rw [hsplit, extractLoop_skip _ _ hpre]
  have h1 : endsWithSemi (pyStrip trig) = false := hnosemi trig (by simp)
  simp only [extractLoop, htrig, Bool.or_true, h1, if_true, if_false,
    Bool.false_eq_true, ite_false, ite_true]
  rw [extractLoop_capture_noSemi rest (fun l hl => hnosemi l (by simp [hl]))]
  rfl

/-- Witness for C2: a statement split across two lines with no terminator is
returned as one space-joined line. -/
theorem extract_no_terminator_witness :
    extract_sql_only "SELECT name\nFROM user_data" = "SELECT name FROM user_data" :=
  (extract_no_terminator "SELECT name\nFROM user_data"
    [] "SELECT name".data ["FROM user_data".data]
    (by decide) (by decide) (by decide) (by decide)).trans (by decide)

/-- C3: a text none of whose lines, after trimming, begins (case-insensitively)
with `SELECT` or `WITH` yields the empty string; the absence of a match is
not an exception, the function is total. -/
theorem extract_no_trigger (text : String)
    (h : ∀ l ∈ pySplitlines text.data, isTriggerLine l = false) :
    extract_sql_only text = "" := by
  unfold extract_sql_only
  have h2 := extractLoop_skip (pySplitlines text.data) [] h
  rw [List.append_nil] at h2
  rw [h2]
  rfl

/-- Witness for C3: a refusal containing no `SELECT`/`WITH` line yields `""`. -/
theorem extract_no_trigger_witness :
    extract_sql_only "I cannot help with that." = "" :=
  extract_no_trigger "I cannot help with that." (by decide)

/-- C6: the extraction trigger is case-insensitive — a line whose stripped
form is `select` followed by any tail triggers capture exactly as one whose
stripped form is `SELECT` followed by the same tail, and both do trigger. -/
theorem trigger_case_insensitive (line1 line2 tail : List Char)
    (h1 : pyStrip line1 = "select".data ++ tail)
    (h2 : pyStrip line2 = "SELECT".data ++ tail) :
    isTriggerLine line1 = true ∧ isTriggerLine line2 = true
      ∧ isTriggerLine line1 = isTriggerLine line2 := by
  have hu : List.map Char.toUpper "select".data = "SELECT".data := by decide
  have hu2 : List.map Char.toUpper "SELECT".data = "SELECT".data := by decide
  have e1 : isTriggerLine line1 = true := by
    unfold isTriggerLine pyUpper
    rw [h1, List.map_append, hu, isPrefixOf_append_self, Bool.true_or]
  have e2 : isTriggerLine line2 = true := by
    unfold isTriggerLine pyUpper
    rw [h2, List.map_append, hu2, isPrefixOf_append_self, Bool.true_or]
  exact ⟨e1, e2, e1.trans e2.symm⟩

/-- Witness for C6: `"  select * from user_data"` and
`" SELECT * from user_data"` both trigger, identically. -/
theorem trigger_case_insensitive_witness :
    isTriggerLine "  select * from user_data".data = true
      ∧ isTriggerLine " SELECT * from user_data".data = true
      ∧ isTriggerLine "  select * from user_data".data
          = isTriggerLine " SELECT * from user_data".data :=
  trigger_case_insensitive "  select * from user_data".data
    " SELECT * from user_data".data " * from user_data".data (by decide) (by decide)

/-- C7: on the three-line input with leading prose, a semicolon-terminated
statement and trailing prose, exactly the statement without its semicolon is
returned. -/
theorem extract_roundtrip :
    extract_sql_only "Sure!\nSELECT * FROM user_data WHERE age > 30;\nHope that helps."
      = "SELECT * FROM user_data WHERE age > 30" := by
  decide

/-- C9: the extractor's result never ends with a semicolon, for any input
text; and a terminating line ending in several semicolons loses all of them,
not just one. -/
theorem extract_never_ends_semicolon :
    (∀ text : String, endsWithSemi (extract_sql_only text).data = false)
      ∧ extract_sql_only "SELECT a;;" = "SELECT a" := by
  constructor
  · intro text
    exact endsWithSemi_joinC _ (fun p hp => extractLoop_mem_noSemi _ _ _ hp)
  · decide

/-- C10: the trigger is a raw prefix match, not a keyword match — prose lines
beginning with `With`/`Select` as word prefixes start the capture, so the
returned string can begin with non-SQL text. -/
theorem trigger_matches_prose :
    extract_sql_only "Without a doubt, here is the query:"
        = "Without a doubt, here is the query:"
      ∧ extract_sql_only "Selected rows are shown below\nSELECT name FROM user_data;"
        = "Selected rows are shown below SELECT name FROM user_data" := by
  exact ⟨by decide, by decide⟩

/-! ## Claim theorems: prompt builder and completion client -/

/-- Counterexample to C4 as stated for arbitrary sequences of column names:
with a duplicated name the rendered list contains that name twice, and with a
name containing the separator `", "` the name does not occur as a field of
the rendered list at all. -/
theorem prompt_columns_counterexample :
    (splitCommaSpace (renderColumns ["age", "age"]).data).count "age".data = 2
      ∧ (splitCommaSpace (renderColumns ["a, b"]).data).count "a, b".data = 0 :=
  ⟨by decide, by decide⟩

/-- C4 (amended): for every non-empty sequence of pairwise-distinct column
names none of which contains the separator `", "`, and every question, the
prompt is the fixed preamble, the comma-joined column list, the fixed
examples block, the question and the cue `\nSQL:`; reading the rendered
column list back as its `", "`-separated fields recovers exactly the column
sequence, so every column name occurs exactly once in it. -/
theorem prompt_structure (cols : List String) (question : String)
    (hne : cols ≠ []) (hnd : cols.Nodup)
    (hsep : ∀ c ∈ cols, containsCommaSpace c.data = false) :
    generate_sql_prompt (renderColumns cols) question
        = promptPart1 ++ renderColumns cols ++ promptPart2 ++ question ++ cueSuffix
      ∧ splitCommaSpace (renderColumns cols).data = cols.map String.data
      ∧ ∀ c ∈ cols, (splitCommaSpace (renderColumns cols).data).count c.data = 1 := by
  have hfields : splitCommaSpace (renderColumns cols).data = cols.map String.data := by
    rw [renderColumns_data]
    refine splitCommaSpace_joinC _ (fun hmap => hne (by simpa using hmap)) ?_
    intro f hf
    obtain ⟨c, hc, rfl⟩ := List.mem_map.mp hf
    exact hsep c hc
  refine ⟨rfl, hfields, ?_⟩
  intro c hc
  rw [hfields]
  have hinj : Function.Injective String.data := fun a b hab => String.ext hab
  exact count_one_of_nodup _ (hnd.map hinj) _ (List.mem_map_of_mem _ hc)

/-- Witness for the amended C4 at a concrete schema and question. -/
theorem prompt_structure_witness :
    generate_sql_prompt (renderColumns ["name", "age"]) "How many rows are there?"
        = promptPart1 ++ renderColumns ["name", "age"] ++ promptPart2
            ++ "How many rows are there?" ++ cueSuffix
      ∧ splitCommaSpace (renderColumns ["name", "age"]).data
          = (["name", "age"].map String.data)
      ∧ ∀ c ∈ ["name", "age"],
          (splitCommaSpace (renderColumns ["name", "age"]).data).count c.data = 1 :=
  prompt_structure ["name", "age"] "How many rows are there?"
    (by decide) (by decide) (by decide)

/-- Counterexample to C5 as stated: `raise_for_status()` raises only for
status codes ≥ 400, so a non-2xx response (here 304) whose body carries a
well-formed `"response"` field is treated as success and the result is not
prefixed with the error marker. -/
theorem completion_non2xx_counterexample :
    generate_sql_query "name, age" "How many rows?"
        (fun _ => Except.ok ⟨304, some (some "SELECT COUNT(*) FROM user_data")⟩)
      = "SELECT COUNT(*) FROM user_data"
      ∧ errorMarker.data.isPrefixOf
          (generate_sql_query "name, age" "How many rows?"
            (fun _ => Except.ok ⟨304, some (some "SELECT COUNT(*) FROM user_data")⟩)).data
        = false :=
  ⟨by decide, by decide⟩

/-- C5 (amended): whenever the completion attempt fails — the request raises
a network error, the response status is 4xx/5xx, the body is not valid JSON,
or the decoded body lacks the `"response"` field — `generate_sql_query`
returns the error marker followed by the exception's description; being a
total function, it never propagates the exception. -/
theorem completion_failure_returns_marker (c q : String)
    (net : String → Except String HttpResponse) :
    (∀ e, net (generate_sql_prompt c q) = Except.error e →
        generate_sql_query c q net = errorMarker ++ e)
      ∧ (∀ r, net (generate_sql_prompt c q) = Except.ok r →
          400 ≤ r.status → r.status < 600 →
          generate_sql_query c q net = errorMarker ++ httpErrorText r.status)
      ∧ (∀ r, net (generate_sql_prompt c q) = Except.ok r →
          r.status < 400 ∨ 600 ≤ r.status → r.jsonBody = none →
          generate_sql_query c q net = errorMarker ++ jsonDecodeErrorText)
      ∧ (∀ r, net (generate_sql_prompt c q) = Except.ok r →
          r.status < 400 ∨ 600 ≤ r.status → r.jsonBody = some none →
          generate_sql_query c q net = errorMarker ++ keyErrorText) := by
  refine ⟨?_, ?_, ?_, ?_⟩
  · intro e he
    have hco : completionOutcome (net (generate_sql_prompt c q)) = Except.error e := by
      rw [he]
      rfl
    unfold generate_sql_query
    rw [hco]
  · intro r hr hst hst2
    have hco : completionOutcome (net (generate_sql_prompt c q))
        = Except.error (httpErrorText r.status) := by
      rw [hr]
      simp only [completionOutcome]
      rw [if_pos ⟨hst, hst2⟩]
    unfold generate_sql_query
    rw [hco]
  · intro r hr hst hb
    have hraise : ¬(400 ≤ r.status ∧ r.status < 600) := by
      rintro ⟨h1, h2⟩
      rcases hst with h | h <;> omega
    have hco : completionOutcome (net (generate_sql_prompt c q))
        = Except.error jsonDecodeErrorText := by
      rw [hr]
      simp only [completionOutcome]
      rw [if_neg hraise, hb]
    unfold generate_sql_query
    rw [hco]
  · intro r hr hst hb
    have hraise : ¬(400 ≤ r.status ∧ r.status < 600) := by
      rintro ⟨h1, h2⟩
      rcases hst with h | h <;> omega
    have hco : completionOutcome (net (generate_sql_prompt c q))
        = Except.error keyErrorText := by
      rw [hr]
      simp only [completionOutcome]
      rw [if_neg hraise, hb]
    unfold generate_sql_query
    rw [hco]

/-- Witness for the amended C5: a network failure is reported inline. -/
theorem completion_failure_returns_marker_witness :
    generate_sql_query "name, age" "list names"
        (fun _ => Except.error "connection refused")
      = errorMarker ++ "connection refused" :=
  (completion_failure_returns_marker "name, age" "list names"
    (fun _ => Except.error "connection refused")).1 "connection refused" rfl

/-- C8: prompt construction is a pure function of the column string and the
question — identical inputs give byte-identical prompts. -/
theorem prompt_deterministic (c1 c2 q1 q2 : String) (hc : c1 = c2) (hq : q1 = q2) :
    generate_sql_prompt c1 q1 = generate_sql_prompt c2 q2 := by
  rw [hc, hq]

set_option maxRecDepth 8192 in
/-- Witness for C8 at a concrete column list and question. -/
theorem prompt_deterministic_witness :
    generate_sql_prompt "name, age" "How many?" = generate_sql_prompt "name, age" "How many?" :=
  prompt_deterministic "name, age" "name, age" "How many?" "How many?" rfl rfl

end AutoSQL
